import Mathlib

/-!
Verification of the test-support utilities of the playwright-javascript
suite: the credential store (`saveCredentials` / `getLatestCredentials` in
`utils/helpers.js`), the HTTP request adapter (`apiRequest`,
`executeNetworkCall`, `parseResponseBody`, `extractCookie` in
`utils/api-helper.js`) and the synthetic-identity generator
(`generateRandomUser` in `utils/helpers.js`).

JavaScript values exchanged through `JSON.parse` / `JSON.stringify` are
embedded as the inductive `Json` below.  Numbers keep their literal text:
the suite never computes with parsed numbers, and IEEE-754 semantics are
outside the embedding.
-/

/-- JSON values as exchanged by the suite. -/
inductive Json where
  | null : Json
  | bool (b : Bool) : Json
  | num (lit : String) : Json
  | str (s : String) : Json
  | arr (elems : List Json) : Json
  | obj (fields : List (String × Json)) : Json

/-- Does a JSON value carry a field named `key`?  (Relevant only for
objects; every other value has no fields.) -/
def Json.hasKey : Json → String → Bool
  | .obj fields, key => fields.any (fun kv => kv.1 == key)
  | _, _ => false

/-- Is the value an array?  This is the `Array.isArray` test. -/
def Json.isArr : Json → Bool
  | .arr _ => true
  | _ => false

/-! ## Credential store (src/utils/helpers.js)

The store is a single file, `utils/credentials.json`.  The file-system
state is `Option FileText`: `none` when `fs.existsSync` is false, otherwise
the text content of the file. -/

/-- Errors raised by the credential-store helpers: an explicit
`new Error(msg)` from `helpers.js`, a `SyntaxError` raised by the
`JSON.parse` builtin, or a `TypeError` (calling `.push` on a non-array). -/
inductive JsError where
  | message (msg : String) : JsError
  | syntaxError : JsError
  | typeError : JsError

/-- Modelled from the spec: text content of the credentials file as seen
through the external `JSON.parse` builtin.  `jsonValue j` stands for any
non-blank text accepted by `JSON.parse` with result `j` (in particular
everything `JSON.stringify` produces); `blank s` for text whose `trim()` is
empty; `malformed s` for non-blank text `JSON.parse` rejects. -/
inductive FileText where
  | jsonValue (j : Json) : FileText
  | blank (s : String) : FileText
  | malformed (s : String) : FileText

/-- Modelled from the spec: the `JSON.parse` builtin applied to file text.
It throws a `SyntaxError` both on blank input and on malformed input. -/
def FileText.jsParse : FileText → Except JsError Json
  | .jsonValue j => .ok j
  | .blank _ => .error .syntaxError
  | .malformed _ => .error .syntaxError

/-- The `!fileContent.trim()` emptiness test of `getLatestCredentials`. -/
def FileText.trimIsEmpty : FileText → Bool
  | .blank _ => true
  | _ => false

/-- The object literal pushed by `saveCredentials` (helpers.js lines
156-172): thirteen bindings in source order.  Each argument is a JS value
that is `undefined` (`none`) when the caller passed fewer arguments;
`createdAt` is always the `new Date().toISOString()` string. -/
def credentialRecordFields
    (username password firstName lastName address city state zipCode
     phoneNumber ssn checkingAccountId savingsAccountId : Option Json)
    (createdAt : String) : List (String × Option Json) :=
  [("username", username), ("password", password), ("firstName", firstName),
   ("lastName", lastName), ("address", address), ("city", city),
   ("state", state), ("zipCode", zipCode), ("phoneNumber", phoneNumber),
   ("ssn", ssn), ("checkingAccountId", checkingAccountId),
   ("savingsAccountId", savingsAccountId),
   ("createdAt", some (Json.str createdAt))]

/-- Modelled from the spec: `JSON.stringify` serializes an object literal by
keeping exactly the fields whose value is defined — fields bound to
`undefined` are dropped from the output. -/
def serializeRecord (fields : List (String × Option Json)) : Json :=
  Json.obj (fields.filterMap (fun kv => kv.2.map (fun v => (kv.1, v))))

/-- Embedding of `saveCredentials` (helpers.js lines 130-176): read the
existing array (starting from `[]` when the file is absent), push the new
record, write the whole array back with `JSON.stringify`.  A malformed
existing file makes `JSON.parse` throw; an existing file whose JSON is not
an array makes `data.push` throw a `TypeError`.  The result is the new
file-system state; `now` is the timestamp taken at append time. -/
def saveCredentials (file : Option FileText)
    (username password firstName lastName address city state zipCode
     phoneNumber ssn checkingAccountId savingsAccountId : Option Json)
    (now : String) : Except JsError (Option FileText) :=
  let record := serializeRecord (credentialRecordFields username password
    firstName lastName address city state zipCode phoneNumber ssn
    checkingAccountId savingsAccountId now)
  match file with
  | none => .ok (some (FileText.jsonValue (Json.arr ([] ++ [record]))))
  | some content =>
    match content.jsParse with
    | .error e => .error e
    | .ok (Json.arr elems) =>
      .ok (some (FileText.jsonValue (Json.arr (elems ++ [record]))))
    | .ok _ => .error .typeError

/-- Embedding of `getLatestCredentials` (helpers.js lines 187-209). -/
def getLatestCredentials (file : Option FileText) : Except JsError Json :=
  match file with
  | none => .error (.message "credentials.json does not exist")
  | some content =>
    if content.trimIsEmpty then .error (.message "credentials.json is empty")
    else
      match content.jsParse with
      | .error e => .error e
      | .ok (Json.arr elems) =>
        match elems.getLast? with
        | none => .error (.message "No saved credentials found")
        | some last => .ok last
      | .ok _ => .error (.message "No saved credentials found")

/-! ## Theorems about the credential store -/

/-- Helper: the last element of a list with one element appended. -/
theorem getLast?_append_singleton {α : Type} (l : List α) (a : α) :
    (l ++ [a]).getLast? = some a := by
  rw [List.getLast?_append_cons]
  rfl

/-- Helper: `getLatestCredentials` on a file holding a JSON array is decided
by the array's last element. -/
theorem getLatestCredentials_on_array (elems : List Json) :
    getLatestCredentials (some (FileText.jsonValue (Json.arr elems)))
      = match elems.getLast? with
        | none => Except.error (JsError.message "No saved credentials found")
        | some last => Except.ok last := rfl

/-- C1: appending a credential record (all twelve fields supplied) with
`saveCredentials` and then reading with `getLatestCredentials`, with no
other writer intervening, returns exactly the just-appended record — the
given field values plus the `createdAt` timestamp taken at append time —
whatever array the store already held (including the absent-file case). -/
theorem saveCredentials_getLatestCredentials_roundtrip
    (file : Option FileText) (elems : List Json)
    (hwf : file = none ∨ file = some (FileText.jsonValue (Json.arr elems)))
    (u p fn ln ad ci st zi ph ss ck sv : Json) (now : String) :
    ∃ file1,
      saveCredentials file (some u) (some p) (some fn) (some ln) (some ad)
        (some ci) (some st) (some zi) (some ph) (some ss) (some ck) (some sv)
        now = Except.ok file1 ∧
      getLatestCredentials file1
        = Except.ok (Json.obj [("username", u), ("password", p),
            ("firstName", fn), ("lastName", ln), ("address", ad),
            ("city", ci), ("state", st), ("zipCode", zi),
            ("phoneNumber", ph), ("ssn", ss), ("checkingAccountId", ck),
            ("savingsAccountId", sv), ("createdAt", Json.str now)]) := by
  rcases hwf with h | h <;> subst h
  · exact ⟨_, rfl, rfl⟩
  · refine ⟨_, rfl, ?_⟩
    rw [getLatestCredentials_on_array, List.getLast?_append_cons]
    rfl

/-- Witness for C1 at a concrete store state and record. -/
theorem saveCredentials_getLatestCredentials_roundtrip_witness :
    ∃ file1,
      saveCredentials none (some (Json.str "jdoe")) (some (Json.str "P@$$w0rd42"))
        (some (Json.str "Jane")) (some (Json.str "Doe"))
        (some (Json.str "1 Main St")) (some (Json.str "Austin"))
        (some (Json.str "TX")) (some (Json.str "73301"))
        (some (Json.str "5125550100")) (some (Json.str "123456789"))
        (some (Json.num "13344")) (some (Json.num "13400"))
        "2026-01-02T03:04:05.000Z" = Except.ok file1 ∧
      getLatestCredentials file1
        = Except.ok (Json.obj [("username", Json.str "jdoe"),
            ("password", Json.str "P@$$w0rd42"), ("firstName", Json.str "Jane"),
            ("lastName", Json.str "Doe"), ("address", Json.str "1 Main St"),
            ("city", Json.str "Austin"), ("state", Json.str "TX"),
            ("zipCode", Json.str "73301"),
            ("phoneNumber", Json.str "5125550100"),
            ("ssn", Json.str "123456789"),
            ("checkingAccountId", Json.num "13344"),
            ("savingsAccountId", Json.num "13400"),
            ("createdAt", Json.str "2026-01-02T03:04:05.000Z")]) :=
  saveCredentials_getLatestCredentials_roundtrip none [] (Or.inl rfl)
    (Json.str "jdoe") (Json.str "P@$$w0rd42") (Json.str "Jane")
    (Json.str "Doe") (Json.str "1 Main St") (Json.str "Austin")
    (Json.str "TX") (Json.str "73301") (Json.str "5125550100")
    (Json.str "123456789") (Json.num "13344") (Json.num "13400")
    "2026-01-02T03:04:05.000Z"

/-- C2 counterexample: a file holding `{}` — valid JSON that is not an
array — fails with exactly the same "No saved credentials found" error as a
file holding `[]`, so the not-a-sequence case is not diagnosable by its
message alone and there is no distinct malformed-data message. -/
theorem getLatestCredentials_nonArray_same_error_as_empty :
    getLatestCredentials (some (FileText.jsonValue (Json.obj [])))
      = Except.error (JsError.message "No saved credentials found") ∧
    getLatestCredentials (some (FileText.jsonValue (Json.arr [])))
      = Except.error (JsError.message "No saved credentials found") :=
  ⟨rfl, rfl⟩

/-- C2 amended: `getLatestCredentials` fails with "credentials.json does not
exist" when the file is absent, with "credentials.json is empty" when the
content is blank, with the raw `JSON.parse` syntax error (no case-specific
message) when the content is malformed, and with the single message "No
saved credentials found" both when the parsed content is an empty array and
when it is valid JSON that is not an array — the not-a-sequence case shares
the no-records message instead of having a distinct malformed-data one. -/
theorem getLatestCredentials_error_cases :
    getLatestCredentials none
      = Except.error (JsError.message "credentials.json does not exist") ∧
    (∀ s, getLatestCredentials (some (FileText.blank s))
      = Except.error (JsError.message "credentials.json is empty")) ∧
    (∀ s, getLatestCredentials (some (FileText.malformed s))
      = Except.error JsError.syntaxError) ∧
    getLatestCredentials (some (FileText.jsonValue (Json.arr [])))
      = Except.error (JsError.message "No saved credentials found") ∧
    (∀ j, Json.isArr j = false →
      getLatestCredentials (some (FileText.jsonValue j))
        = Except.error (JsError.message "No saved credentials found")) := by
  refine ⟨rfl, fun s => rfl, fun s => rfl, rfl, fun j hj => ?_⟩
  cases j with
  | arr elems => exact absurd hj (by simp [Json.isArr])
  | null => rfl
  | bool b => rfl
  | num lit => rfl
  | str s => rfl
  | obj fields => rfl

/-- Witness for C2 (amended) at a concrete non-array file content. -/
theorem getLatestCredentials_error_cases_witness :
    getLatestCredentials (some (FileText.jsonValue (Json.str "oops")))
      = Except.error (JsError.message "No saved credentials found") :=
  getLatestCredentials_error_cases.2.2.2.2 (Json.str "oops") rfl

/-- C3 counterexample: the `userCreationFixture` call site
(customFixtures.js lines 49-60) passes only ten arguments, leaving
`checkingAccountId` and `savingsAccountId` undefined; the element written
for it has no `checkingAccountId` key (nor `savingsAccountId`), so not
every written element has all thirteen fields. -/
theorem saveCredentials_drops_undefined_account_ids :
    saveCredentials none (some (Json.str "jdoe")) (some (Json.str "P@$$w0rd42"))
      (some (Json.str "Jane")) (some (Json.str "Doe"))
      (some (Json.str "1 Main St")) (some (Json.str "Austin"))
      (some (Json.str "TX")) (some (Json.str "73301"))
      (some (Json.str "5125550100")) (some (Json.str "123456789")) none none
      "2026-01-02T03:04:05.000Z"
      = Except.ok (some (FileText.jsonValue (Json.arr [Json.obj
          [("username", Json.str "jdoe"), ("password", Json.str "P@$$w0rd42"),
           ("firstName", Json.str "Jane"), ("lastName", Json.str "Doe"),
           ("address", Json.str "1 Main St"), ("city", Json.str "Austin"),
           ("state", Json.str "TX"), ("zipCode", Json.str "73301"),
           ("phoneNumber", Json.str "5125550100"),
           ("ssn", Json.str "123456789"),
           ("createdAt", Json.str "2026-01-02T03:04:05.000Z")]]))) ∧
    (Json.obj
          [("username", Json.str "jdoe"), ("password", Json.str "P@$$w0rd42"),
           ("firstName", Json.str "Jane"), ("lastName", Json.str "Doe"),
           ("address", Json.str "1 Main St"), ("city", Json.str "Austin"),
           ("state", Json.str "TX"), ("zipCode", Json.str "73301"),
           ("phoneNumber", Json.str "5125550100"),
           ("ssn", Json.str "123456789"),
           ("createdAt", Json.str "2026-01-02T03:04:05.000Z")]).hasKey
      "checkingAccountId" = false :=
  ⟨rfl, rfl⟩

/-- C3 amended: every element appended by `saveCredentials` has the fields
`username`, `password`, `firstName`, `lastName`, `address`, `city`,
`state`, `zipCode`, `phoneNumber`, `ssn` and `createdAt`; the
`checkingAccountId` and `savingsAccountId` fields are present exactly when
the caller supplied them — `JSON.stringify` drops fields bound to
`undefined`, so callers that omit the account identifiers produce elements
without those two keys. -/
theorem saveCredentials_record_keys
    (file : Option FileText) (elems : List Json)
    (hwf : file = none ∨ file = some (FileText.jsonValue (Json.arr elems)))
    (u p fn ln ad ci st zi ph ss : Json) (ck sv : Option Json)
    (now : String) :
    ∃ written,
      saveCredentials file (some u) (some p) (some fn) (some ln) (some ad)
        (some ci) (some st) (some zi) (some ph) (some ss) ck sv now
        = Except.ok (some (FileText.jsonValue (Json.arr written))) ∧
      ∃ last, written.getLast? = some last ∧
        last.hasKey "username" = true ∧ last.hasKey "password" = true ∧
        last.hasKey "firstName" = true ∧ last.hasKey "lastName" = true ∧
        last.hasKey "address" = true ∧ last.hasKey "city" = true ∧
        last.hasKey "state" = true ∧ last.hasKey "zipCode" = true ∧
        last.hasKey "phoneNumber" = true ∧ last.hasKey "ssn" = true ∧
        last.hasKey "createdAt" = true ∧
        last.hasKey "checkingAccountId" = ck.isSome ∧
        last.hasKey "savingsAccountId" = sv.isSome := by
  rcases hwf with h | h <;> subst h <;> cases ck <;> cases sv <;>
    exact ⟨_, rfl, _, getLast?_append_singleton _ _, rfl, rfl, rfl, rfl, rfl,
      rfl, rfl, rfl, rfl, rfl, rfl, rfl, rfl⟩

/-- Witness for C3 (amended): a fixture-style append that supplies a
checking account id but no savings account id. -/
theorem saveCredentials_record_keys_witness :
    ∃ written,
      saveCredentials none (some (Json.str "jdoe2")) (some (Json.str "pw"))
        (some (Json.str "Jo")) (some (Json.str "Dee")) (some (Json.str "2 Elm"))
        (some (Json.str "Waco")) (some (Json.str "TX")) (some (Json.str "76701"))
        (some (Json.str "2545550100")) (some (Json.str "987654321"))
        (some (Json.num "13344")) none "2026-01-02T03:04:05.000Z"
        = Except.ok (some (FileText.jsonValue (Json.arr written))) ∧
      ∃ last, written.getLast? = some last ∧
        last.hasKey "username" = true ∧ last.hasKey "password" = true ∧
        last.hasKey "firstName" = true ∧ last.hasKey "lastName" = true ∧
        last.hasKey "address" = true ∧ last.hasKey "city" = true ∧
        last.hasKey "state" = true ∧ last.hasKey "zipCode" = true ∧
        last.hasKey "phoneNumber" = true ∧ last.hasKey "ssn" = true ∧
        last.hasKey "createdAt" = true ∧
        last.hasKey "checkingAccountId" = (some (Json.num "13344")).isSome ∧
        last.hasKey "savingsAccountId" = (none : Option Json).isSome :=
  saveCredentials_record_keys none [] (Or.inl rfl) (Json.str "jdoe2")
    (Json.str "pw") (Json.str "Jo") (Json.str "Dee") (Json.str "2 Elm")
    (Json.str "Waco") (Json.str "TX") (Json.str "76701")
    (Json.str "2545550100") (Json.str "987654321") (some (Json.num "13344"))
    none "2026-01-02T03:04:05.000Z"

/-! ## Cookie extraction (src/utils/api-helper.js, extractCookie)

JS string primitives used by `extractCookie` are modelled on the character
lists underlying Lean strings: `trim`, `toLowerCase` (ASCII range) and
`split(sep)[0]` for a one-character separator. -/

/-- Characters removed by the `trim()` calls of the suite (the common JS
whitespace characters; the inputs handled here are HTTP header text). -/
def isJsWhitespace (c : Char) : Bool :=
  c == ' ' || c == '\t' || c == '\n' || c == '\r'

/-- Worker for `jsTrim` on the underlying character list: drop whitespace
from both ends. -/
def jsTrimList (l : List Char) : List Char :=
  ((l.dropWhile isJsWhitespace).reverse.dropWhile isJsWhitespace).reverse

/-- Models JS `String.prototype.trim`. -/
def jsTrim (s : String) : String := ⟨jsTrimList s.data⟩

/-- Models JS `s.split(sep)[0]` for a one-character separator: the longest
prefix of `s` that contains no occurrence of `sep`. -/
def splitFirst (sep : Char) (s : String) : String :=
  ⟨s.data.takeWhile (fun c => c != sep)⟩

/-- Models JS `String.prototype.toLowerCase` (ASCII range). -/
def jsToLower (s : String) : String := ⟨s.data.map Char.toLower⟩

/-- Models JS `String.prototype.toUpperCase` (ASCII range). -/
def jsToUpper (s : String) : String := ⟨s.data.map Char.toUpper⟩

/-- A value held under a response-header key: Playwright may present
`set-cookie` as a single string or as an array of strings. -/
inductive HeaderVal where
  | str (s : String) : HeaderVal
  | arr (ss : List String) : HeaderVal

/-- Models the JS property read `headers[key]` on the response-header
object (at most one value per key). -/
def headersGet (headers : List (String × HeaderVal)) (key : String) :
    Option HeaderVal :=
  (headers.find? (fun kv => kv.1 == key)).map (fun kv => kv.2)

/-- Models JS truthiness of the `setCookie` value: `undefined` and the
empty string are falsy, arrays are always truthy. -/
def headerValTruthy : HeaderVal → Bool
  | .str s => s != ""
  | .arr _ => true

/-- The `Array.isArray` normalization of extractCookie (line 150). -/
def HeaderVal.toArray : HeaderVal → List String
  | .str s => [s]
  | .arr ss => ss

/-- The find predicate of extractCookie (lines 153-155):
`c.trim().split('=')[0].toLowerCase() === cookieName.toLowerCase()`. -/
def cookieNameMatches (cookieName c : String) : Bool :=
  jsToLower (splitFirst '=' (jsTrim c)) == jsToLower cookieName

/-- Embedding of `extractCookie` (api-helper.js lines 145-161). -/
def extractCookie (headers : List (String × HeaderVal))
    (cookieName : String) : Option String :=
  match headersGet headers "set-cookie" with
  | none => none
  | some setCookie =>
    if headerValTruthy setCookie then
      match setCookie.toArray.find? (cookieNameMatches cookieName) with
      | none => none
      | some targetCookie => some (splitFirst ';' targetCookie)
    else none

/-! ## Theorems about extractCookie -/

/-- Helper: `takeWhile` runs through a prefix all of whose elements satisfy
the predicate and stops at the first failing element. -/
theorem takeWhile_append_stop {α : Type} (p : α → Bool) (l r : List α)
    (x : α) (hl : ∀ a ∈ l, p a = true) (hx : p x = false) :
    (l ++ x :: r).takeWhile p = l := by
  induction l with
  | nil => simp [List.takeWhile_cons, hx]
  | cons a t ih =>
    have ha : p a = true := hl a (List.mem_cons_self a t)
    simp [List.cons_append, List.takeWhile_cons, ha,
      ih (fun b hb => hl b (List.mem_cons_of_mem a hb))]

/-- Helper: `dropWhile` cannot cross an element that fails the predicate. -/
theorem dropWhile_append_stop {α : Type} (p : α → Bool) (l r : List α)
    (x : α) (hx : p x = false) :
    (l ++ x :: r).dropWhile p = l.dropWhile p ++ x :: r := by
  induction l with
  | nil => simp [List.dropWhile_cons, hx]
  | cons a t ih =>
    cases ha : p a <;>
      simp [List.dropWhile_cons, ha, ih]

/-- Helper: `find?` skips a prefix on which the predicate is false. -/
theorem find?_append_of_false {α : Type} (p : α → Bool) (pre l : List α)
    (h : ∀ a ∈ pre, p a = false) :
    (pre ++ l).find? p = l.find? p := by
  induction pre with
  | nil => rfl
  | cons a t ih =>
    have ha : p a = false := h a (List.mem_cons_self a t)
    simp only [List.cons_append, List.find?_cons, ha,
      ih (fun b hb => h b (List.mem_cons_of_mem a hb))]


/-- Helper: the underlying characters of a string concatenation. -/
theorem string_data_append (a b : String) :
    (a ++ b).data = a.data ++ b.data := by
  cases a
  cases b
  rfl

/-- Helper: trimming a well-formed cookie entry `nm=val;attrs` — the cookie
name nonempty and whitespace-free — only right-trims the attribute part. -/
theorem jsTrimList_entry (nmd vald attrsd : List Char)
    (hws : ∀ c ∈ nmd, isJsWhitespace c = false) (hne : nmd ≠ []) :
    jsTrimList (nmd ++ '=' :: (vald ++ ';' :: attrsd))
      = nmd ++ '=' :: (vald
          ++ ';' :: (attrsd.reverse.dropWhile isJsWhitespace).reverse) := by
  unfold jsTrimList
  have h1 : (nmd ++ '=' :: (vald ++ ';' :: attrsd)).dropWhile isJsWhitespace
      = nmd ++ '=' :: (vald ++ ';' :: attrsd) := by
    cases nmd with
    | nil => exact absurd rfl hne
    | cons c0 rest =>
      have hc0 : isJsWhitespace c0 = false := hws c0 (List.mem_cons_self c0 rest)
      simp [List.dropWhile_cons, hc0]
  rw [h1]
  have h2 : (nmd ++ '=' :: (vald ++ ';' :: attrsd)).reverse
      = attrsd.reverse ++ ';' :: (vald.reverse ++ '=' :: nmd.reverse) := by
    simp
  rw [h2, dropWhile_append_stop _ _ _ _ (by rfl)]
  simp

/-- Helper: a well-formed `set-cookie` entry `nm=val;attrs` — cookie name
nonempty, whitespace-free and `=`-free — satisfies the find predicate of
extractCookie exactly when the name matches case-insensitively. -/
theorem cookieNameMatches_wellFormed (cookieName nm val attrs : String)
    (hlow : jsToLower nm = jsToLower cookieName)
    (hws : ∀ c ∈ nm.data, isJsWhitespace c = false)
    (heq : ∀ c ∈ nm.data, (c != '=') = true)
    (hne : nm.data ≠ []) :
    cookieNameMatches cookieName (nm ++ "=" ++ val ++ ";" ++ attrs) = true := by
  have hdata : (nm ++ "=" ++ val ++ ";" ++ attrs).data
      = nm.data ++ '=' :: (val.data ++ ';' :: attrs.data) := by
    simp [string_data_append]
  have htrim : jsTrim (nm ++ "=" ++ val ++ ";" ++ attrs)
      = ⟨nm.data ++ '=' :: (val.data
          ++ ';' :: (attrs.data.reverse.dropWhile isJsWhitespace).reverse)⟩ := by
    unfold jsTrim
    rw [hdata, jsTrimList_entry _ _ _ hws hne]
  have hsplit : splitFirst '=' (jsTrim (nm ++ "=" ++ val ++ ";" ++ attrs)) = nm := by
    rw [htrim]
    unfold splitFirst
    have : (nm.data ++ '=' :: (val.data
        ++ ';' :: (attrs.data.reverse.dropWhile isJsWhitespace).reverse)).takeWhile
          (fun c => c != '=') = nm.data :=
      takeWhile_append_stop _ _ _ _ heq (by rfl)
    simp only [this]
  unfold cookieNameMatches
  rw [hsplit, hlow]
  exact beq_self_eq_true _

/-- Helper: `split(';')[0]` of a well-formed entry is its name=value part. -/
theorem splitFirst_semi_entry (nm val attrs : String)
    (hnm : ∀ c ∈ nm.data, (c != ';') = true)
    (hval : ∀ c ∈ val.data, (c != ';') = true) :
    splitFirst ';' (nm ++ "=" ++ val ++ ";" ++ attrs) = nm ++ "=" ++ val := by
  have hall : ∀ c ∈ nm.data ++ '=' :: val.data, (c != ';') = true := by
    intro c hc
    rcases List.mem_append.mp hc with h | h
    · exact hnm c h
    · rcases List.mem_cons.mp h with h | h
      · subst h
        rfl
      · exact hval c h
  have hdata : (nm ++ "=" ++ val ++ ";" ++ attrs).data
      = (nm.data ++ '=' :: val.data) ++ ';' :: attrs.data := by
    simp [string_data_append]
  have hres : (nm ++ "=" ++ val).data = nm.data ++ '=' :: val.data := by
    simp [string_data_append]
  unfold splitFirst
  rw [hdata, takeWhile_append_stop _ _ _ _ hall (by rfl), ← hres]

/-- C4: `extractCookie headers "JSESSIONID"` returns `null` when no
`set-cookie` header is present, and, for a well-formed matching entry
`nm=val;attrs` whose name segment matches JSESSIONID case-insensitively,
returns exactly the `name=value` substring — the text before the first
semicolon, attributes excluded — both when `set-cookie` is that single
string and when it is a list containing the entry (after any non-matching
entries). -/
theorem extractCookie_spec
    (headers : List (String × HeaderVal)) (nm val attrs : String)
    (hlow : jsToLower nm = jsToLower "JSESSIONID")
    (hws : ∀ c ∈ nm.data, isJsWhitespace c = false)
    (heq : ∀ c ∈ nm.data, (c != '=') = true)
    (hnmsemi : ∀ c ∈ nm.data, (c != ';') = true)
    (hvalsemi : ∀ c ∈ val.data, (c != ';') = true)
    (hne : nm.data ≠ []) :
    (headersGet headers "set-cookie" = none →
      extractCookie headers "JSESSIONID" = none) ∧
    (headersGet headers "set-cookie"
        = some (HeaderVal.str (nm ++ "=" ++ val ++ ";" ++ attrs)) →
      extractCookie headers "JSESSIONID" = some (nm ++ "=" ++ val)) ∧
    (∀ pre post,
      (∀ c ∈ pre, cookieNameMatches "JSESSIONID" c = false) →
      headersGet headers "set-cookie"
        = some (HeaderVal.arr (pre ++ (nm ++ "=" ++ val ++ ";" ++ attrs) :: post)) →
      extractCookie headers "JSESSIONID" = some (nm ++ "=" ++ val)) := by
  have hmatch : cookieNameMatches "JSESSIONID" (nm ++ "=" ++ val ++ ";" ++ attrs)
      = true := cookieNameMatches_wellFormed "JSESSIONID" nm val attrs hlow hws heq hne
  have hout : splitFirst ';' (nm ++ "=" ++ val ++ ";" ++ attrs) = nm ++ "=" ++ val :=
    splitFirst_semi_entry nm val attrs hnmsemi hvalsemi
  have hentry_ne : (nm ++ "=" ++ val ++ ";" ++ attrs) ≠ "" := by
    intro h
    have hd : (nm ++ "=" ++ val ++ ";" ++ attrs).data
        = nm.data ++ '=' :: (val.data ++ ';' :: attrs.data) := by
      simp [string_data_append]
    rw [h] at hd
    exact absurd hd.symm (by simp)
  refine ⟨fun h => ?_, fun h => ?_, fun pre post hpre h => ?_⟩
  · simp only [extractCookie, h]
  · simp [extractCookie, h, headerValTruthy, HeaderVal.toArray, hmatch, hout,
      hentry_ne, List.find?_cons_of_pos]
  · simp [extractCookie, h, headerValTruthy, HeaderVal.toArray,
      find?_append_of_false _ _ _ hpre, List.find?_cons_of_pos, hmatch, hout]

/-- Witness for C4 at a concrete header map and cookie entry. -/
theorem extractCookie_spec_witness :
    extractCookie [("content-type", HeaderVal.str "text/html"),
        ("set-cookie", HeaderVal.arr ["NSC_ttm=ffff; Path=/",
          "JSESSIONID" ++ "=" ++ "0A1B2C3D" ++ ";" ++ " Path=/parabank; HttpOnly"])]
      "JSESSIONID" = some ("JSESSIONID" ++ "=" ++ "0A1B2C3D") :=
  (extractCookie_spec [("content-type", HeaderVal.str "text/html"),
        ("set-cookie", HeaderVal.arr ["NSC_ttm=ffff; Path=/",
          "JSESSIONID" ++ "=" ++ "0A1B2C3D" ++ ";" ++ " Path=/parabank; HttpOnly"])]
      "JSESSIONID" "0A1B2C3D" " Path=/parabank; HttpOnly"
      (by decide) (by decide) (by decide) (by decide) (by decide)
      (by decide)).2.2 ["NSC_ttm=ffff; Path=/"] [] (by decide) rfl

/-! ## HTTP request adapter (src/utils/api-helper.js, apiRequest)

The request side of `apiRequest` is pure option-building followed by verb
dispatch; `executeNetworkCall` either throws (unsupported method) or hands
Playwright one verb-specific call, embedded below as a `NetworkCall`
value. -/

/-- The `headers` argument of `apiRequest`: a raw token string or a header
object. -/
inductive HeadersArg where
  | token (s : String) : HeadersArg
  | map (m : List (String × String)) : HeadersArg

/-- The request options assembled by `apiRequest` (the `headers`,
`maxRedirects`, `data` and `form` keys of `httpRequestOptions`). -/
structure HttpRequestOptions where
  headers : List (String × String)
  maxRedirects : Nat
  data : Option Json
  form : Option Json

/-- Models the JS property read `obj[key]` on a string-valued object. -/
def objGet (m : List (String × String)) (key : String) : Option String :=
  (m.find? (fun kv => kv.1 == key)).map (fun kv => kv.2)

/-- Models the JS property write `obj[key] = v`: replaces the binding when
the key is present, appends it otherwise. -/
def objSet (m : List (String × String)) (key v : String) :
    List (String × String) :=
  if (m.find? (fun kv => kv.1 == key)).isSome then
    m.map (fun kv => if kv.1 == key then (key, v) else kv)
  else m ++ [(key, v)]

/-- Models JS string falsiness of the `Content-Type` lookup: the key is
absent (`undefined`) or bound to the empty string. -/
def contentTypeFalsy : Option String → Bool
  | none => true
  | some s => s == ""

/-- Step 1 of `apiRequest` (header orchestration, api-helper.js lines
42-53): the whole block is guarded by `if (headers)`, so a falsy argument —
`undefined` or the empty string — leaves the empty defaults untouched.  A
non-empty string argument becomes a `Token` authorization header; an object
argument (an object is always truthy) is merged over the empty defaults. -/
def orchestrateHeaders : Option HeadersArg → List (String × String)
  | none => []
  | some (.token s) =>
    if s == "" then [] else [("Authorization", "Token " ++ s)]
  | some (.map m) => m

/-- Step 2 of `apiRequest` (body payload formatting, lines 55-69): with a
body and `isFormData` the body goes under `form`; with a body and not
`isFormData` it goes under `data` and `Content-Type: application/json` is
set unless a truthy `Content-Type` is already present; with no body the
options carry only the orchestrated headers. -/
def buildRequestOptions (body : Option Json) (headers : Option HeadersArg)
    (isFormData : Bool) : HttpRequestOptions :=
  let h0 := orchestrateHeaders headers
  match body with
  | none => { headers := h0, maxRedirects := 0, data := none, form := none }
  | some b =>
    if isFormData then
      { headers := h0, maxRedirects := 0, data := none, form := some b }
    else
      let h1 := if contentTypeFalsy (objGet h0 "Content-Type") then
          objSet h0 "Content-Type" "application/json"
        else h0
      { headers := h1, maxRedirects := 0, data := some b, form := none }

/-- One verb-specific Playwright call, as dispatched by
`executeNetworkCall`. -/
structure NetworkCall where
  verb : String
  url : String
  options : HttpRequestOptions

/-- Embedding of `executeNetworkCall` (api-helper.js lines 95-105):
uppercase the method, dispatch on the fixed verb set, throw a descriptive
error on anything else — no call is issued in that case. -/
def executeNetworkCall (method url : String) (options : HttpRequestOptions) :
    Except String NetworkCall :=
  let verb := jsToUpper method
  if verb == "POST" || verb == "GET" || verb == "PUT" || verb == "DELETE"
      || verb == "PATCH" then
    .ok { verb := verb, url := url, options := options }
  else
    .error ("Unsupported HTTP method: " ++ verb)

/-- Embedding of the request-assembly half of `apiRequest` (api-helper.js
lines 23-75): orchestrate headers, format the body, build the URL
(`baseUrl ? baseUrl + url : url`), dispatch.  The result is the network
call Playwright receives, or the unsupported-method error. -/
def apiRequestCall (method url : String) (baseUrl : Option String)
    (body : Option Json) (headers : Option HeadersArg) (isFormData : Bool) :
    Except String NetworkCall :=
  let httpRequestOptions := buildRequestOptions body headers isFormData
  let requestUrl := match baseUrl with
    | some b => b ++ url
    | none => url
  executeNetworkCall method requestUrl httpRequestOptions

/-! ## Theorems about the request-assembly side of apiRequest -/

/-- C5: with a non-null body and `isFormData = false`, the options carry
the body under `data` and a `Content-Type: application/json` header unless
the orchestrated headers already supplied a (non-empty) `Content-Type`, in
which case they are kept unchanged; with `isFormData = true` the body goes
under `form` and the headers are left exactly as orchestrated — no JSON
`Content-Type` is added. -/
theorem apiRequest_contentType (b : Json) (headers : Option HeadersArg) :
    ((objGet (orchestrateHeaders headers) "Content-Type" = none →
        objGet (buildRequestOptions (some b) headers false).headers
          "Content-Type" = some "application/json") ∧
      (∀ v, v ≠ "" →
        objGet (orchestrateHeaders headers) "Content-Type" = some v →
        (buildRequestOptions (some b) headers false).headers
          = orchestrateHeaders headers) ∧
      (buildRequestOptions (some b) headers false).data = some b) ∧
    ((buildRequestOptions (some b) headers true).form = some b ∧
      (buildRequestOptions (some b) headers true).data = none ∧
      (buildRequestOptions (some b) headers true).headers
        = orchestrateHeaders headers) := by
  refine ⟨⟨fun habs => ?_, fun v hv hsup => ?_, ?_⟩, rfl, rfl, rfl⟩
  · have hf : contentTypeFalsy (objGet (orchestrateHeaders headers)
        "Content-Type") = true := by
      rw [habs]
      rfl
    have hnone : (orchestrateHeaders headers).find?
        (fun kv => kv.1 == "Content-Type") = none := by
      unfold objGet at habs
      cases hfind : (orchestrateHeaders headers).find?
          (fun kv => kv.1 == "Content-Type") with
      | none => rfl
      | some kv =>
        rw [hfind] at habs
        exact absurd habs (by simp)
    have hfalse : ∀ kv ∈ orchestrateHeaders headers,
        (fun kv => kv.1 == "Content-Type") kv = false := by
      intro kv hk
      have hnot := List.find?_eq_none.mp hnone kv hk
      simpa using hnot
    have happ : (buildRequestOptions (some b) headers false).headers
        = orchestrateHeaders headers
            ++ [("Content-Type", "application/json")] := by
      simp [buildRequestOptions, hf, objSet, hnone]
    rw [happ]
    unfold objGet
    rw [find?_append_of_false _ _ _ hfalse]
    rfl
  · have hf : contentTypeFalsy (objGet (orchestrateHeaders headers)
        "Content-Type") = false := by
      rw [hsup]
      unfold contentTypeFalsy
      exact beq_eq_false_iff_ne.mpr hv
    simp [buildRequestOptions, hf]
  · simp [buildRequestOptions]

/-- Witness for C5: a JSON body with no supplied content type gets the
JSON `Content-Type`, and a form body leaves the headers alone. -/
theorem apiRequest_contentType_witness :
    objGet (buildRequestOptions (some (Json.obj [("amount", Json.num "10")]))
        (some (HeadersArg.map [("Accept", "text/html")])) false).headers
      "Content-Type" = some "application/json" ∧
    (buildRequestOptions (some (Json.obj [("amount", Json.num "10")]))
        (some (HeadersArg.map [("Accept", "text/html")])) true).headers
      = orchestrateHeaders (some (HeadersArg.map [("Accept", "text/html")])) :=
  ⟨(apiRequest_contentType (Json.obj [("amount", Json.num "10")])
      (some (HeadersArg.map [("Accept", "text/html")]))).1.1 rfl,
    (apiRequest_contentType (Json.obj [("amount", Json.num "10")])
      (some (HeadersArg.map [("Accept", "text/html")]))).2.2.2⟩

/-- C7: any method whose uppercasing is outside POST/GET/PUT/DELETE/PATCH
makes `apiRequest` fail with a descriptive error naming the unsupported
method, and no verb-specific network call is produced at all. -/
theorem apiRequest_unsupported_method
    (method url : String) (baseUrl : Option String) (body : Option Json)
    (headers : Option HeadersArg) (isFormData : Bool)
    (h : jsToUpper method ∉
      (["POST", "GET", "PUT", "DELETE", "PATCH"] : List String)) :
    apiRequestCall method url baseUrl body headers isFormData
      = Except.error ("Unsupported HTTP method: " ++ jsToUpper method) := by
  have hv : (jsToUpper method == "POST" || jsToUpper method == "GET"
      || jsToUpper method == "PUT" || jsToUpper method == "DELETE"
      || jsToUpper method == "PATCH") = false := by
    simp only [List.mem_cons, List.mem_singleton, not_or] at h
    obtain ⟨h1, h2, h3, h4, h5⟩ := h
    simp [h1, h2, h3, h4, h5]
  unfold apiRequestCall executeNetworkCall
  simp only [hv, Bool.false_eq_true, if_false]

/-- Witness for C7 at the concrete unsupported method HEAD. -/
theorem apiRequest_unsupported_method_witness :
    apiRequestCall "head" "/parabank/services/bank/accounts" none none none
      false = Except.error ("Unsupported HTTP method: " ++ jsToUpper "head") :=
  apiRequest_unsupported_method "head" "/parabank/services/bank/accounts"
    none none none false (by decide)

/-- C10 counterexample: with the empty-string headers argument, the
`if (headers)` truthiness guard (api-helper.js line 43) skips header
orchestration entirely, so the dispatched call carries no Authorization
header at all — the original claim fails at `s = ""`. -/
theorem apiRequest_token_empty_no_header :
    orchestrateHeaders (some (HeadersArg.token "")) = [] ∧
    apiRequestCall "GET" "/parabank/services/bank/login" none none
      (some (HeadersArg.token "")) false
      = Except.ok
          { verb := "GET"
            url := "/parabank/services/bank/login"
            options :=
              { headers := []
                maxRedirects := 0
                data := none
                form := none } } :=
  ⟨rfl, rfl⟩

/-- C10 amended: a non-empty string `headers` argument `s` produces exactly
the single header list `Authorization: Token s` — the `Token` scheme,
nothing else from that argument — and the dispatched call carries exactly
those headers when no body is involved; the empty string is falsy in JS, so
it produces no headers at all (see the counterexample). -/
theorem apiRequest_token_header (s url : String) (hs : s ≠ "") :
    orchestrateHeaders (some (HeadersArg.token s))
      = [("Authorization", "Token " ++ s)] ∧
    apiRequestCall "GET" url none none (some (HeadersArg.token s)) false
      = Except.ok
          { verb := "GET"
            url := url
            options :=
              { headers := [("Authorization", "Token " ++ s)]
                maxRedirects := 0
                data := none
                form := none } } := by
  have hne : (s == "") = false := beq_eq_false_iff_ne.mpr hs
  have h1 : orchestrateHeaders (some (HeadersArg.token s))
      = [("Authorization", "Token " ++ s)] := by
    simp [orchestrateHeaders, hne]
  have h2 : apiRequestCall "GET" url none none (some (HeadersArg.token s))
      false
      = Except.ok
          { verb := "GET"
            url := url
            options :=
              { headers := orchestrateHeaders (some (HeadersArg.token s))
                maxRedirects := 0
                data := none
                form := none } } := rfl
  rw [h2, h1]
  exact ⟨rfl, rfl⟩

/-- Witness for C10 (amended) at a concrete non-empty token. -/
theorem apiRequest_token_header_witness :
    orchestrateHeaders (some (HeadersArg.token "sessionTok123"))
      = [("Authorization", "Token " ++ "sessionTok123")] ∧
    apiRequestCall "GET" "/parabank/services/bank/accounts" none none
      (some (HeadersArg.token "sessionTok123")) false
      = Except.ok
          { verb := "GET"
            url := "/parabank/services/bank/accounts"
            options :=
              { headers := [("Authorization", "Token " ++ "sessionTok123")]
                maxRedirects := 0
                data := none
                form := none } } :=
  apiRequest_token_header "sessionTok123" "/parabank/services/bank/accounts"
    (by decide)

/-! ## Response body parsing (src/utils/api-helper.js, parseResponseBody)

`parseResponseBody` feeds the raw response text to `JSON.parse` and falls
back to the raw text when parsing throws.  `JSON.parse` is external; it is
modelled here as a recursive-descent reader of the JSON grammar over the
response text.  Numbers are kept as literal text; `\u` escapes are not
modelled (texts using them count as unparseable). -/

/-- JSON insignificant whitespace (space, tab, line feed, carriage
return). -/
def skipJsonWs (s : List Char) : List Char :=
  s.dropWhile (fun c => c == ' ' || c == '\t' || c == '\n' || c == '\r')

/-- Reads the remainder of a JSON string literal after the opening quote:
stops at the closing quote, decodes one-character escapes, rejects control
characters and unknown escapes. -/
def readStringRest : List Char → Option (String × List Char)
  | [] => none
  | c :: rest =>
    if c == '"' then some ("", rest)
    else if c == '\\' then
      match rest with
      | [] => none
      | e :: rest2 =>
        let dec : Option Char :=
          if e == '"' then some '"'
          else if e == '\\' then some '\\'
          else if e == '/' then some '/'
          else if e == 'b' then some (Char.ofNat 8)
          else if e == 'f' then some (Char.ofNat 12)
          else if e == 'n' then some '\n'
          else if e == 'r' then some '\r'
          else if e == 't' then some '\t'
          else none
        match dec with
        | none => none
        | some d =>
          (readStringRest rest2).map (fun pr => (⟨d :: pr.1.data⟩, pr.2))
    else if c.toNat < 32 then none
    else (readStringRest rest).map (fun pr => (⟨c :: pr.1.data⟩, pr.2))

/-- Splits off a maximal run of decimal digits. -/
def readDigits (s : List Char) : List Char × List Char :=
  (s.takeWhile Char.isDigit, s.dropWhile Char.isDigit)

/-- Reads the fraction part of a number literal, if present. -/
def readFrac (acc : List Char) (s : List Char) :
    Option (List Char × List Char) :=
  match s with
  | '.' :: rest =>
    let pr := readDigits rest
    if pr.1.isEmpty then none else some (acc ++ '.' :: pr.1, pr.2)
  | _ => some (acc, s)

/-- Reads the exponent part of a number literal, if present. -/
def readExp (acc : List Char) (s : List Char) :
    Option (List Char × List Char) :=
  match s with
  | c :: rest =>
    if c == 'e' || c == 'E' then
      let tail := match rest with
        | '+' :: r => (['+'], r)
        | '-' :: r => (['-'], r)
        | _ => (([] : List Char), rest)
      let pr := readDigits tail.2
      if pr.1.isEmpty then none
      else some (acc ++ c :: (tail.1 ++ pr.1), pr.2)
    else some (acc, s)
  | [] => some (acc, s)

/-- Reads a JSON number literal (optional minus, integer part without
leading zeros, optional fraction and exponent), returning its text. -/
def readNumberLit (s : List Char) : Option (String × List Char) :=
  let start := match s with
    | '-' :: rest => (['-'], rest)
    | _ => (([] : List Char), s)
  match start.2 with
  | [] => none
  | c :: rest =>
    if c == '0' then
      match readFrac (start.1 ++ ['0']) rest with
      | none => none
      | some pr =>
        match readExp pr.1 pr.2 with
        | none => none
        | some pr2 => some (⟨pr2.1⟩, pr2.2)
    else if c.isDigit then
      let pr0 := readDigits rest
      match readFrac (start.1 ++ c :: pr0.1) pr0.2 with
      | none => none
      | some pr =>
        match readExp pr.1 pr.2 with
        | none => none
        | some pr2 => some (⟨pr2.1⟩, pr2.2)
    else none

mutual

/-- Reads one JSON value (fuel-bounded recursive descent). -/
def readJsonValue : Nat → List Char → Option (Json × List Char)
  | 0, _ => none
  | Nat.succ fuel, s =>
    match skipJsonWs s with
    | 'n' :: 'u' :: 'l' :: 'l' :: rest => some (Json.null, rest)
    | 't' :: 'r' :: 'u' :: 'e' :: rest => some (Json.bool true, rest)
    | 'f' :: 'a' :: 'l' :: 's' :: 'e' :: rest => some (Json.bool false, rest)
    | '"' :: rest =>
      (readStringRest rest).map (fun pr => (Json.str pr.1, pr.2))
    | '[' :: rest =>
      (match skipJsonWs rest with
        | ']' :: rest2 => some (Json.arr [], rest2)
        | s2 => (readJsonItems fuel s2).map (fun pr => (Json.arr pr.1, pr.2)))
    | '{' :: rest =>
      (match skipJsonWs rest with
        | '}' :: rest2 => some (Json.obj [], rest2)
        | s2 =>
          (readJsonMembers fuel s2).map (fun pr => (Json.obj pr.1, pr.2)))
    | s1 => (readNumberLit s1).map (fun pr => (Json.num pr.1, pr.2))

/-- Reads the comma-separated items of a non-empty JSON array, up to and
including the closing bracket. -/
def readJsonItems : Nat → List Char → Option (List Json × List Char)
  | 0, _ => none
  | Nat.succ fuel, s =>
    match readJsonValue fuel s with
    | none => none
    | some (v, rest) =>
      match skipJsonWs rest with
      | ',' :: rest2 =>
        (readJsonItems fuel rest2).map (fun pr => (v :: pr.1, pr.2))
      | ']' :: rest2 => some ([v], rest2)
      | _ => none

/-- Reads the comma-separated members of a non-empty JSON object, up to
and including the closing brace. -/
def readJsonMembers : Nat → List Char →
    Option (List (String × Json) × List Char)
  | 0, _ => none
  | Nat.succ fuel, s =>
    match skipJsonWs s with
    | '"' :: rest =>
      (match readStringRest rest with
        | none => none
        | some (k, rest2) =>
          match skipJsonWs rest2 with
          | ':' :: rest3 =>
            (match readJsonValue fuel rest3 with
              | none => none
              | some (v, rest4) =>
                match skipJsonWs rest4 with
                | ',' :: rest5 =>
                  (readJsonMembers fuel rest5).map
                    (fun pr => ((k, v) :: pr.1, pr.2))
                | '}' :: rest5 => some ([(k, v)], rest5)
                | _ => none)
          | _ => none)
    | _ => none

end

/-- Modelled from the spec: the `JSON.parse` builtin — parse one value,
allow only trailing whitespace, reject everything else. -/
def jsonParse (s : String) : Option Json :=
  match readJsonValue (2 * s.data.length + 2) s.data with
  | some (v, rest) => if (skipJsonWs rest).isEmpty then some v else none
  | none => none

/-- The `body` field produced by the HTTP adapter: a parsed JSON value, the
raw response text, or JS `null`. -/
inductive BodyResult where
  | jsonVal (j : Json) : BodyResult
  | textVal (s : String) : BodyResult
  | nullVal : BodyResult

/-- Embedding of `parseResponseBody` (api-helper.js lines 114-132).  The
argument is the outcome of `response.text()` (`Except.error` when the body
cannot be read, in which case a warning is logged and null returned).
Empty text gives null; text accepted by `JSON.parse` gives the parsed
value; any other text is returned raw. -/
def parseResponseBody (read : Except String String) : BodyResult :=
  match read with
  | .error _ => .nullVal
  | .ok rawText =>
    if rawText == "" then .nullVal
    else
      match jsonParse rawText with
      | some j => .jsonVal j
      | none => .textVal rawText

/-! ## Theorems about parseResponseBody -/

/-- C6 counterexample: the empty body text is not well-formed JSON, yet
`parseResponseBody` returns null for it, not the raw text unchanged. -/
theorem parseResponseBody_empty_not_raw :
    jsonParse "" = none ∧
    parseResponseBody (Except.ok "") = BodyResult.nullVal ∧
    parseResponseBody (Except.ok "") ≠ BodyResult.textVal "" :=
  ⟨rfl, rfl, fun h => BodyResult.noConfusion h⟩

/-- C6 amended: body parsing is a total function that never fails: nonempty
text rejected by `JSON.parse` is returned raw and unchanged, text accepted
by `JSON.parse` is returned parsed, and the empty text is returned as
null. -/
theorem parseResponseBody_fallback (rawText : String) :
    (rawText ≠ "" → jsonParse rawText = none →
      parseResponseBody (Except.ok rawText) = BodyResult.textVal rawText) ∧
    (∀ j, jsonParse rawText = some j →
      parseResponseBody (Except.ok rawText) = BodyResult.jsonVal j) ∧
    (rawText = "" → parseResponseBody (Except.ok rawText)
      = BodyResult.nullVal) := by
  by_cases he : rawText = ""
  · subst he
    refine ⟨fun h _ => absurd rfl h, fun j hj => ?_, fun _ => rfl⟩
    exact absurd hj (by intro hh; rw [jsonParse] at hh; exact Option.noConfusion hh)
  · have hne : (rawText == "") = false := beq_eq_false_iff_ne.mpr he
    refine ⟨fun _ hnone => ?_, fun j hj => ?_, fun h => absurd h he⟩
    · simp [parseResponseBody, hne, hnone]
    · simp [parseResponseBody, hne, hj]

/-- Witness for C6 (amended) at a concrete Parabank-style text body. -/
theorem parseResponseBody_fallback_witness :
    parseResponseBody (Except.ok "Successfully transferred")
      = BodyResult.textVal "Successfully transferred" :=
  (parseResponseBody_fallback "Successfully transferred").1
    (by decide) (by rfl)

/-- C9: the empty body text and an unreadable body both produce the null
body, so the two cases are indistinguishable from the body field alone. -/
theorem parseResponseBody_empty_eq_unreadable (err : String) :
    parseResponseBody (Except.ok "") = BodyResult.nullVal ∧
    parseResponseBody (Except.error err) = BodyResult.nullVal ∧
    parseResponseBody (Except.ok "") = parseResponseBody (Except.error err) :=
  ⟨rfl, rfl, rfl⟩

/-! ## Synthetic identity generator (src/utils/helpers.js)

The faker library is external: one oracle field per faker call made by the
generator, holding the string that call returned. -/

/-- Modelled from the spec: the outputs of the faker calls performed by one
`generateRandomUser` invocation. -/
structure FakerDraws where
  personFirstName : String
  personLastName : String
  locationStreetAddress : String
  locationCity : String
  locationState : String
  locationZipCode : String
  phoneTenDigits : String
  stringNumericNine : String
  internetUsername : String
  internetPassword : String

/-- The nested address part of a generated identity. -/
structure AddressParts where
  street : String
  city : String
  state : String
  zipCode : String

/-- A generated identity, as returned by `generateRandomUser`. -/
structure RandomUser where
  firstName : String
  lastName : String
  address : AddressParts
  phoneNumber : String
  ssn : String
  username : String
  password : String
  confirmPassword : String

/-- Embedding of `generateRandomUsername` (helpers.js lines 31-42): the
faker username with every character outside a-z, A-Z, 0-9 removed. -/
def generateRandomUsername (fk : FakerDraws) : String :=
  ⟨fk.internetUsername.data.filter (fun c => c.isAlpha || c.isDigit)⟩

/-- Embedding of `generateRandomPassword` (helpers.js lines 56-63): the
ten-character prefixed faker password (the library call is external, so
the draw is taken from the oracle). -/
def generateRandomPassword (fk : FakerDraws) : String :=
  fk.internetPassword

/-- Embedding of `generateRandomUser` (helpers.js lines 75-118). -/
def generateRandomUser (fk : FakerDraws) : RandomUser :=
  let password := generateRandomPassword fk
  { firstName := fk.personFirstName
    lastName := fk.personLastName
    address :=
      { street := fk.locationStreetAddress
        city := fk.locationCity
        state := fk.locationState
        zipCode := fk.locationZipCode }
    phoneNumber := fk.phoneTenDigits
    ssn := fk.stringNumericNine
    username := generateRandomUsername fk
    password := password
    confirmPassword := password }

/-- C8: every identity produced by `generateRandomUser` has
`confirmPassword` equal to `password` — the generator mirrors the password
with no override. -/
theorem generateRandomUser_confirmPassword (fk : FakerDraws) :
    (generateRandomUser fk).confirmPassword
      = (generateRandomUser fk).password := rfl
